import Mathlib

/-!
Verification development for the persistence and content-cache subsystem of
the User_BCi_App repository.

Two source modules are embedded:

* `js/storage.js` — the `ElectronStorage` class (encrypted key-value store
  with format migration), modelled in namespace `Storage`;
* `src/main/cache.js` — the hash-validated content cache with retry,
  stale-fallback and offline queue, modelled in namespace `Cache`.

External platform primitives (node's `crypto` cipher routines, `JSON`
serialization, the transport returned by `fetch`, `Date.now`, the SHA-256
digest) are not repository code; they are modelled as parameters collected
in the structures `CryptoModel` and `FetchEnv`, so every theorem quantifies
over any implementation of those primitives satisfying the stated,
localized contracts (for example, that AES-GCM decryption inverts
encryption at the inputs actually used).

JavaScript string operations used by the source (`includes(':')`,
`split(':')`, `substring`, `startsWith`) are modelled on `String.data`
(lists of characters) with the exact JS semantics; JS object maps are
modelled as insertion-ordered association lists, with assignment keeping an
existing key in place and appending a fresh key, as JS property order does.
-/

/-! ## Generic JS-object map model (insertion-ordered association list) -/

/-- Lookup of a key in a JS object, `obj[k]`; `none` models `undefined`. -/
def getKV {α : Type} (m : List (String × α)) (k : String) : Option α :=
  (m.find? (fun p => p.1 == k)).map (fun p => p.2)

/-- Assignment `obj[k] = v`: an existing key keeps its position, a fresh key
is appended, matching JS property-order semantics. -/
def setKV {α : Type} (m : List (String × α)) (k : String) (v : α) :
    List (String × α) :=
  if m.any (fun p => p.1 == k) then
    m.map (fun p => if p.1 == k then (k, v) else p)
  else
    m ++ [(k, v)]

/-- Deletion `delete obj[k]`: removes the key, keeping the order of the
remaining properties. -/
def delKV {α : Type} (m : List (String × α)) (k : String) :
    List (String × α) :=
  m.filter (fun p => !(p.1 == k))

/-! ## JS string primitives used by the source -/

/-- Model of the JS `text.includes(':')` test. -/
def jsIncludesColon (s : String) : Bool :=
  s.data.any (fun c => c == ':')

/-- Model of the JS `text.split(':')` (on character lists); JS `split` on an
empty string yields `[""]`, which this definition reproduces. -/
def splitOnColon : List Char → List (List Char)
  | [] => [[]]
  | c :: rest =>
    if c = ':' then [] :: splitOnColon rest
    else
      match splitOnColon rest with
      | [] => [[c]]
      | h :: t => (c :: h) :: t

/-! ## Storage: the data model of `js/storage.js` -/

/-- JSON-like values: what a JS object loaded from the store's JSON file can
hold. Encrypted envelopes are `str` values. -/
inductive JVal where
  | null : JVal
  | bool (b : Bool) : JVal
  | num (n : Int) : JVal
  | str (s : String) : JVal
  | arr (xs : List JVal) : JVal
  | obj (fs : List (String × JVal)) : JVal

/-- JS truthiness of a value read out of the data map (`value ? ... : null`,
`if (decrypted)`). -/
def jsTruthy : JVal → Bool
  | .null => false
  | .bool b => b
  | .num n => n != 0
  | .str s => s != ""
  | .arr _ => true
  | .obj _ => true

/-- Platform primitives used by `ElectronStorage`, with the store's derived
key fixed (the class derives `this.key` once in its constructor and every
operation uses it). `gcmEnc iv text` returns `(ciphertext, authTag)` as hex
strings; `gcmDec iv authTag ciphertext` returns the plaintext, or `none`
when node's decipher would throw (bad tag, wrong key, malformed input).
`cbcDecLegacy` is `decryptLegacy`'s cipher core: AES-256-CBC with the fixed
zero IV, returning `none` where the source's internal catch returns `null`.
`ivGen` enumerates the successive outputs of `crypto.randomBytes(12)` in hex,
and `stringify`/`parseJ` model `JSON.stringify`/`JSON.parse` (with `none`
for a `parse` throw). -/
structure CryptoModel where
  gcmEnc : String → String → String × String
  gcmDec : String → String → String → Option String
  cbcDecLegacy : String → Option String
  ivGen : Nat → String
  stringify : JVal → String
  parseJ : String → Option JVal

/-- State of one `ElectronStorage` instance: the in-memory `this.data` map,
the on-disk file (`none` when absent), and how many random IVs have been
drawn so far. -/
structure StoreState where
  data : List (String × JVal)
  file : Option (List (String × JVal))
  ivCtr : Nat

namespace Storage

/-- Key of the reserved format-version marker. -/
def encVerKey : String := "_encryptionVersion"

/-- The current encryption format version, `ENCRYPTION_VERSION = 2`. -/
def ENCRYPTION_VERSION : Int := 2

/-- The `encrypt` method: fresh IV, AES-256-GCM, envelope
`ivHex:authTagHex:ciphertextHex`. The IV index is the caller-threaded
counter of random draws. -/
def encrypt (M : CryptoModel) (n : Nat) (text : String) : String :=
  let iv := M.ivGen n
  let ct := (M.gcmEnc iv text).1
  let tag := (M.gcmEnc iv text).2
  iv ++ ":" ++ tag ++ ":" ++ ct

/-- The `saveData` method: write the whole map to the file. -/
def saveData (st : StoreState) : StoreState :=
  { st with file := some st.data }

/-- The `clearStorage` method: when the on-disk file exists it is unlinked
and `this.data` reset to `{}`; when the file is absent the body of the `if`
is skipped and nothing at all changes. -/
def clearStorage (st : StoreState) : StoreState :=
  match st.file with
  | some _ => { st with file := none, data := [] }
  | none => st

/-- Core of the `decrypt` method on a string value. Returns the decrypted
plaintext (`some`), or `none` for a JS `null` result, paired with a flag
recording whether the catch block ran (exception from GCM decryption, which
triggers `clearStorage`). A string with a `:` but not exactly 3 segments
falls through to `decryptLegacy`, which never throws. -/
def decryptStr (M : CryptoModel) (text : String) : Option String × Bool :=
  if jsIncludesColon text then
    match splitOnColon text.data with
    | [a, b, c] =>
      match M.gcmDec (String.mk a) (String.mk b) (String.mk c) with
      | some plain => (some plain, false)
      | none => (none, true)
    | _ => (M.cbcDecLegacy text, false)
  else
    (M.cbcDecLegacy text, false)

/-- The `getItem` method. `Except.error` models an uncaught JS exception
(only possible from `JSON.parse` of a non-JSON plaintext); a decryption
failure is caught inside `decrypt`, wipes the store, and yields `null`
(`JSON.parse(null)` evaluates to `null` in JS). A non-string truthy value
makes `decrypt` throw a `TypeError` on `text.includes`, caught by the same
catch: store wiped, `null` returned. -/
def getItem (M : CryptoModel) (st : StoreState) (key : String) :
    Except Unit JVal × StoreState :=
  match getKV st.data key with
  | none => (.ok .null, st)
  | some v =>
    if jsTruthy v then
      match v with
      | .str text =>
        match decryptStr M text with
        | (some plain, _) =>
          match M.parseJ plain with
          | some jv => (.ok jv, st)
          | none => (.error (), st)
        | (none, wiped) =>
          (.ok .null, if wiped then clearStorage st else st)
      | _ => (.ok .null, clearStorage st)
    else
      (.ok .null, st)

/-- The `setItem` method: serialize, encrypt with a fresh IV, store, save. -/
def setItem (M : CryptoModel) (st : StoreState) (key : String) (v : JVal) :
    StoreState :=
  let env := encrypt M st.ivCtr (M.stringify v)
  let d := setKV st.data key (.str env)
  { st with data := d, ivCtr := st.ivCtr + 1, file := some d }

/-- The `removeItem` method. -/
def removeItem (st : StoreState) (key : String) : StoreState :=
  let d := delKV st.data key
  { st with data := d, file := some d }

/-- The strict comparison `this.data._encryptionVersion === ENCRYPTION_VERSION`. -/
def versionIsCurrent (m : List (String × JVal)) : Bool :=
  match getKV m encVerKey with
  | some (.num n) => n == ENCRYPTION_VERSION
  | _ => false

/-- One iteration of `migrateOldData`'s loop over `Object.entries(oldData)`.
The accumulator carries (`newData`, `needsMigration`, IV counter). A string
without `:` is offered to `decryptLegacy`; only a truthy result (non-null,
non-empty) is re-encrypted into `newData`. `decryptLegacy` catches its own
errors and returns `null`, so the loop's catch branch (which would copy the
value over) is unreachable, and a falsy result leaves the key absent from
`newData`. -/
def migrateStep (M : CryptoModel)
    (acc : List (String × JVal) × Bool × Nat) (kv : String × JVal) :
    List (String × JVal) × Bool × Nat :=
  let (newData, needsMig, n) := acc
  match kv.2 with
  | .str s =>
    if !(jsIncludesColon s) then
      match M.cbcDecLegacy s with
      | some d =>
        if d != "" then
          (setKV newData kv.1 (.str (encrypt M n d)), true, n + 1)
        else
          (newData, needsMig, n)
      | none => (newData, needsMig, n)
    else
      (setKV newData kv.1 (.str s), needsMig, n)
  | v => (setKV newData kv.1 v, needsMig, n)

/-- The `migrateOldData` method, run once at startup. (The method's outer
try/catch resets the store on an unexpected exception; no expression in the
loop can throw under this model, so that branch is not reachable here.) -/
def migrateOldData (M : CryptoModel) (st : StoreState) : StoreState :=
  if versionIsCurrent st.data then st
  else
    let oldData := delKV st.data encVerKey
    let init : List (String × JVal) × Bool × Nat :=
      ([(encVerKey, .num ENCRYPTION_VERSION)], false, st.ivCtr)
    let res := oldData.foldl (migrateStep M) init
    if res.2.1 then
      saveData { st with data := res.1, ivCtr := res.2.2 }
    else
      saveData { st with data := setKV st.data encVerKey (.num ENCRYPTION_VERSION) }

end Storage

/-! ## Cache: the data model of `src/main/cache.js` -/

/-- A cache entry as persisted by `apiFetchWithCache`:
`{ content, etag, fetchedAt, hash }`. -/
structure CEntry where
  content : String
  etag : Option String
  fetchedAt : Nat
  hash : Option String
deriving DecidableEq

/-- The manifest body `result.data` of `GET /api/hashes`:
`{ version, assets: { path: digest } }`. `assets` is optional because
`validateFileHash` guards on `!apiHashes.assets`. -/
structure HashData where
  version : String
  assets : Option (List (String × String))
deriving DecidableEq

/-- The stored manifest wrapper `{ data, fetchedAt }` kept under the
`api-hashes-cache` key. -/
structure HashCache where
  data : HashData
  fetchedAt : Nat
deriving DecidableEq

/-- A value held by `ElectronStorage` on behalf of the cache module: either
a file cache entry or the hashes wrapper. The key namespaces
(`api-cache:...` versus `api-hashes-cache`) are disjoint in the source. -/
inductive SVal where
  | entry (c : CEntry)
  | hcache (h : HashCache)
deriving DecidableEq

/-- An offline-queue element `{ pathRel, basePath, ttl }`. -/
structure QEntry where
  pathRel : String
  basePath : String
  ttl : Nat
deriving DecidableEq

/-- One transport outcome for a file fetch: either the promise rejects
(`throwNet`) or a response with a status, body text and optional ETag
header arrives. -/
inductive FetchResp where
  | throwNet
  | resp (status : Nat) (body : String) (etag : Option String)
deriving DecidableEq

/-- One transport outcome for the hashes endpoint: either `fetch`/`json()`
rejects, or a response with a status and the parsed JSON body
`{ success, data }` arrives. -/
inductive HashResp where
  | throwErr
  | resp (status : Nat) (success : Bool) (data : Option HashData)
deriving DecidableEq

/-- The error kinds thrown by `doFetch`, distinguished in the source by the
error message they are constructed with. -/
inductive FetchErr where
  | netErr
  | notFound
  | rateLimited
  | httpErr (status : Nat)
  | unsafeUrl
deriving DecidableEq

/-- Outcome of `apiFetchWithCache`: a resolved entry or a rejection. -/
inductive FetchResult where
  | success (c : CEntry)
  | error (e : FetchErr)
deriving DecidableEq

/-- Platform environment of the cache module: the file transport indexed by
the global count of file fetches issued so far, the hashes transport
indexed likewise, the `security.isUrlSafe` collaborator, the SHA-256 hex
digest, and the configured base URL. -/
structure FetchEnv where
  transport : Nat → FetchResp
  hashTransport : Nat → HashResp
  isUrlSafe : String → Bool
  sha256hex : String → String
  baseUrl : String

/-- Module-level mutable state of `cache.js` plus the storage it uses and
instrumentation counters: `attempts` counts calls to `fetch` for files and
`hashCalls` calls to `fetch` for the hashes endpoint (each call consumes
the next index of the corresponding transport). -/
structure CState where
  storage : List (String × SVal)
  offlineQueue : List QEntry
  isOnline : Bool
  apiHashes : Option HashData
  now : Nat
  attempts : Nat
  hashCalls : Nat
deriving DecidableEq

namespace Cache

/-- `API_CONFIG.STORAGE_PREFIX`. -/
def storagePrefixStr : String := "api-cache:"

/-- `HASHES_CACHE_KEY`. -/
def hashesCacheKey : String := "api-hashes-cache"

/-- `HASHES_TTL` (5 minutes in milliseconds). -/
def hashesTTL : Int := 5 * 60 * 1000

/-- `RETRY_CONFIG.maxRetries`. -/
def maxRetries : Nat := 3

/-- `API_CONFIG.FILES_ENDPOINT`. -/
def filesEndpointStr : String := "/files"

/-- `API_CONFIG.CACHE_BUSTER`. -/
def cacheBuster : String := ""

/-- Read a cache entry out of storage (`ElectronStorage.getItem` under an
`api-cache:`-namespaced key). -/
def getEntry (m : List (String × SVal)) (k : String) : Option CEntry :=
  match getKV m k with
  | some (.entry c) => some c
  | _ => none

/-- Read the hashes wrapper out of storage. -/
def getHCache (m : List (String × SVal)) (k : String) : Option HashCache :=
  match getKV m k with
  | some (.hcache h) => some h
  | _ => none

/-- First 16 characters, `hash.substring(0, 16)`. -/
def hex16 (s : String) : String :=
  String.mk (s.data.take 16)

/-- The `calculateHash` function: `null` for falsy content, else the first
16 hex characters of the SHA-256 digest. -/
def calculateHash (E : FetchEnv) (content : String) : Option String :=
  if content == "" then none
  else some (hex16 (E.sha256hex content))

/-- The `validateFileHash` function, reading the module-global `apiHashes`.
A missing manifest, missing `assets` object, or unmapped path (including a
falsy empty-string digest) is treated as valid. -/
def validateFileHash (E : FetchEnv) (apiHashes : Option HashData)
    (filePath : String) (content : String) : Bool :=
  match apiHashes with
  | none => true
  | some h =>
    match h.assets with
    | none => true
    | some assets =>
      match getKV assets filePath with
      | none => true
      | some expected =>
        if expected == "" then true
        else
          match calculateHash E content with
          | some actual => actual == expected
          | none => false

/-- The `fetchHashesFromAPI` function. A fresh stored wrapper (truthy
`fetchedAt`, age under `HASHES_TTL`; ages are compared as JS numbers, hence
`Int` subtraction) is returned without a network call. Otherwise one
request is issued; a non-OK status throws, and the catch block re-reads the
stored wrapper and returns `cachedHashes?.data || null` whatever its age. -/
def fetchHashesFromAPI (E : FetchEnv) (st : CState) :
    Option HashData × CState :=
  let cachedHashes := getHCache st.storage hashesCacheKey
  let fresh :=
    match cachedHashes with
    | some hc => hc.fetchedAt != 0 && ((st.now : Int) - hc.fetchedAt < hashesTTL)
    | none => false
  if fresh then
    (cachedHashes.map (fun hc => hc.data), st)
  else
    let i := st.hashCalls
    let st1 := { st with hashCalls := i + 1 }
    match E.hashTransport i with
    | .throwErr => (cachedHashes.map (fun hc => hc.data), st1)
    | .resp status success data =>
      if 200 ≤ status && status < 300 then
        if success then
          match data with
          | some d =>
            let wrapper : HashCache := { data := d, fetchedAt := st.now }
            (some d,
             { st1 with storage := setKV st1.storage hashesCacheKey (.hcache wrapper) })
          | none => (none, st1)
        else (none, st1)
      else
        (cachedHashes.map (fun hc => hc.data), st1)

/-- The try block of one `doFetch` attempt, reading transport index `i`:
`Except.error` is a thrown error reaching `doFetch`'s catch. A `304` with a
captured `cached` refreshes its timestamp; an OK status builds the new
payload; `404` and `429` throw their distinct errors; anything else throws
a generic HTTP error. -/
def tryBlock (E : FetchEnv) (cached : Option CEntry) (now i : Nat) :
    Except FetchErr CEntry :=
  match E.transport i with
  | .throwNet => .error .netErr
  | .resp status body etag =>
    let mainBranch : Except FetchErr CEntry :=
      if 200 ≤ status && status < 300 then
        .ok { content := body, etag := etag, fetchedAt := now,
              hash := calculateHash E body }
      else if status == 404 then .error .notFound
      else if status == 429 then .error .rateLimited
      else .error (.httpErr status)
    match cached with
    | some c => if status == 304 then .ok { c with fetchedAt := now } else mainBranch
    | none => mainBranch

/-- The recursive `doFetch` closure. The source counts `retryCount` upward
and recurses while `retryCount < RETRY_CONFIG.maxRetries`; this embedding
carries the equivalent structurally decreasing `retriesLeft =
maxRetries - retryCount` (the initial call `doFetch()` has `retryCount = 0`,
i.e. `retriesLeft = maxRetries`). A successful attempt persists the entry
and resolves. An exhausted budget falls back to a truthy cached entry, else
queues the request when the process is offline and rethrows either way.
(The backoff delay between attempts only suspends; it is not otherwise
observable and is not modelled.) -/
def doFetch (E : FetchEnv) (key : String) (cached : Option CEntry)
    (now : Nat) (pathRel basePath : String) (ttl : Nat)
    (st : CState) (retriesLeft : Nat) : FetchResult × CState :=
  let i := st.attempts
  let st1 := { st with attempts := i + 1 }
  match tryBlock E cached now i with
  | .ok c => (.success c, { st1 with storage := setKV st1.storage key (.entry c) })
  | .error err =>
    match retriesLeft with
    | left + 1 => doFetch E key cached now pathRel basePath ttl st1 left
    | 0 =>
      let exhausted : FetchResult × CState :=
        if st1.isOnline then (.error err, st1)
        else
          (.error err,
           { st1 with offlineQueue :=
               st1.offlineQueue ++ [{ pathRel := pathRel, basePath := basePath, ttl := ttl }] })
      match cached with
      | some c => if c.content != "" then (.success c, st1) else exhausted
      | none => exhausted

/-- The request URL built by `apiFetchWithCache`:
base URL + files endpoint + `/` + file path + cache-busting query. -/
def urlOf (E : FetchEnv) (filePath : String) : String :=
  E.baseUrl ++ filesEndpointStr ++ "/" ++ filePath ++ "?v=" ++ cacheBuster

/-- The manifest-key normalization in `apiFetchWithCache`: a leading slash
is stripped (`filePath.startsWith('/') ? filePath.substring(1) : filePath`). -/
def normPath (filePath : String) : String :=
  match filePath.data with
  | '/' :: rest => String.mk rest
  | _ => filePath

/-- The manifest-loading step of `apiFetchWithCache`: the module-global
`apiHashes` is populated by `fetchHashesFromAPI` when it is still falsy,
otherwise left alone. -/
def hashStage (E : FetchEnv) (st : CState) : CState :=
  match st.apiHashes with
  | none =>
    let res := fetchHashesFromAPI E st
    { res.2 with apiHashes := res.1 }
  | some _ => st

/-- The cache-validation step of `apiFetchWithCache`: the guard
`cached && cached.content && apiHashes` followed by `validateFileHash` on
the normalized path. -/
def validStage (E : FetchEnv) (st2 : CState) (cached : Option CEntry)
    (filePath : String) : Bool :=
  match cached with
  | some c =>
    if c.content != "" && !(st2.apiHashes.isNone) then
      validateFileHash E st2.apiHashes (normPath filePath) c.content
    else false
  | none => false

/-- The `apiFetchWithCache` function. The cache entry and clock are read
once up front; an unsafe URL rejects before any network traffic; a missing
module-global manifest is fetched first (`hashStage`); then hash validation
(`validStage`) may serve the cached entry with no file fetch, and otherwise
`doFetch` runs with the full retry budget. -/
def apiFetchWithCache (E : FetchEnv) (st : CState)
    (pathRel basePath : String) (ttl : Nat) : FetchResult × CState :=
  let key := storagePrefixStr ++ pathRel
  let cached := getEntry st.storage key
  let now := st.now
  let filePath := basePath ++ pathRel
  if !(E.isUrlSafe (urlOf E filePath)) then (.error .unsafeUrl, st)
  else
    let st2 := hashStage E st
    if validStage E st2 cached filePath then
      match cached with
      | some c => (.success c, st2)
      | none => (.error .netErr, st2)
    else
      doFetch E key cached now pathRel basePath ttl st2 maxRetries

/-- Boolean test for a thrown attempt. -/
def isErrB : Except FetchErr CEntry → Bool
  | .error _ => true
  | .ok _ => false

/-- The error thrown by the try block for a non-OK, non-304 status. -/
def statusErr (status : Nat) : FetchErr :=
  if status == 404 then .notFound
  else if status == 429 then .rateLimited
  else .httpErr status

/-- The `processOfflineQueue` function: snapshot the queue, clear it, replay
each element once through `apiFetchWithCache` (its rejection is caught and
only logged). The second component records, in order, the entries that were
replayed. -/
def processOfflineQueue (E : FetchEnv) (st : CState) : CState × List QEntry :=
  if st.offlineQueue == [] then (st, [])
  else
    let queue := st.offlineQueue
    let st1 := { st with offlineQueue := [] }
    (queue.foldl (fun s q => (apiFetchWithCache E s q.pathRel q.basePath q.ttl).2) st1,
     queue)

/-- The `setOnlineStatus` function: record the new flag and drain the queue
on an offline-to-online transition with a non-empty queue. -/
def setOnlineStatus (E : FetchEnv) (st : CState) (online : Bool) :
    CState × List QEntry :=
  let wasOffline := !st.isOnline
  let st1 := { st with isOnline := online }
  if online && wasOffline && !(st1.offlineQueue == []) then
    processOfflineQueue E st1
  else
    (st1, [])

end Cache

/-! ## Concrete platform instances (used by counterexamples and witnesses) -/

/-- A small executable cipher model: the "ciphertext" echoes the plaintext
and the authentication tag is derived from it, so GCM decryption succeeds
exactly when tag and ciphertext agree — flipping a ciphertext character
invalidates the tag, as AEAD authenticity demands. The legacy CBC decipher
accepts exactly the string "AA" (plaintext "x"); JSON handles the single
document "7" (the value 7). -/
def Mw : CryptoModel where
  gcmEnc := fun _ t => (t, "T" ++ t)
  gcmDec := fun _ tag ct => if tag == "T" ++ ct then some ct else none
  cbcDecLegacy := fun s => if s == "AA" then some "x" else none
  ivGen := fun _ => "IV"
  stringify := fun v => match v with | .num (7 : Int) => "7" | _ => "null"
  parseJ := fun s => if s == "7" then some (.num 7) else none

/-- A store whose on-disk map holds one legacy-format value that decrypts
("AA") and one string without a separator that fails legacy decryption
("BB"), before any migration. -/
def stMig : StoreState where
  data := [("a", .str "AA"), ("b", .str "BB")]
  file := some [("a", .str "AA"), ("b", .str "BB")]
  ivCtr := 0

/-- A store holding one three-segment envelope whose ciphertext has been
tampered with: the tag "Tx" does not match the ciphertext "y". -/
def stTampered : StoreState where
  data := [("k", .str "IV:Tx:y")]
  file := some [("k", .str "IV:Tx:y")]
  ivCtr := 0

/-- An environment whose file transport always answers 404. -/
def Ew404 : FetchEnv where
  transport := fun _ => .resp 404 "nf" none
  hashTransport := fun _ => .throwErr
  isUrlSafe := fun _ => true
  sha256hex := fun _ => "0123456789abcdef"
  baseUrl := "https://api.test"

/-- An environment whose file transport always answers 429. -/
def Ew429 : FetchEnv where
  transport := fun _ => .resp 429 "slow down" none
  hashTransport := fun _ => .throwErr
  isUrlSafe := fun _ => true
  sha256hex := fun _ => "0123456789abcdef"
  baseUrl := "https://api.test"

/-- An environment whose file transport fails on the first three attempts
and succeeds from the fourth on. -/
def Ew2 : FetchEnv where
  transport := fun i => if i < 3 then .throwNet else .resp 200 "B" none
  hashTransport := fun _ => .throwErr
  isUrlSafe := fun _ => true
  sha256hex := fun _ => "0123456789abcdef"
  baseUrl := "https://api.test"

/-- An environment whose file transport fails on the first two attempts and
succeeds from the third on. -/
def Ew3 : FetchEnv where
  transport := fun i => if i < 2 then .throwNet else .resp 200 "B" none
  hashTransport := fun _ => .throwErr
  isUrlSafe := fun _ => true
  sha256hex := fun _ => "0123456789abcdef"
  baseUrl := "https://api.test"

/-- An environment whose transports always fail. -/
def EwDown : FetchEnv where
  transport := fun _ => .throwNet
  hashTransport := fun _ => .throwErr
  isUrlSafe := fun _ => true
  sha256hex := fun _ => "0123456789abcdef"
  baseUrl := "https://api.test"

/-- An online cache state with an already-loaded empty manifest and empty
storage. -/
def st0 : CState where
  storage := []
  offlineQueue := []
  isOnline := true
  apiHashes := some { version := "1", assets := some [] }
  now := 5
  attempts := 0
  hashCalls := 0

/-- A manifest mapping the path "pages/p" to the digest of the cached
content under `Ew404.sha256hex` (constant "0123456789abcdef"). -/
def hdW : HashData where
  version := "1"
  assets := some [("pages/p", "0123456789abcdef")]

/-- A cache state holding a cached entry for path "p" whose content hash
matches `hdW`. -/
def stHit : CState where
  storage := [("api-cache:p", .entry { content := "C", etag := none, fetchedAt := 1, hash := some "0123456789abcdef" })]
  offlineQueue := []
  isOnline := true
  apiHashes := some hdW
  now := 5
  attempts := 0
  hashCalls := 0

/-- A manifest mapping "pages/p" to a digest that does not match any
recomputed content hash of the constant digest function. -/
def hdMiss : HashData where
  version := "1"
  assets := some [("pages/p", "ffffffffffffffff")]

/-- Like `stHit` but the manifest expects a different digest, so the cached
entry is invalid. -/
def stMiss : CState where
  storage := [("api-cache:p", .entry { content := "C", etag := none, fetchedAt := 1, hash := some "0123456789abcdef" })]
  offlineQueue := []
  isOnline := true
  apiHashes := some hdMiss
  now := 5
  attempts := 0
  hashCalls := 0

/-- An offline state with no cached entry and one stale manifest wrapper in
storage (fetched long ago relative to `now`). -/
def stOldHashes : CState where
  storage := [("api-hashes-cache", .hcache { data := hdW, fetchedAt := 1 })]
  offlineQueue := []
  isOnline := true
  apiHashes := none
  now := 900000
  attempts := 0
  hashCalls := 0

/-- An offline state with an empty storage and two queued requests. -/
def stQueued : CState where
  storage := []
  offlineQueue := [{ pathRel := "p", basePath := "pages/", ttl := 9 },
                   { pathRel := "q", basePath := "", ttl := 9 }]
  isOnline := false
  apiHashes := some { version := "1", assets := some [] }
  now := 5
  attempts := 0
  hashCalls := 0

/-- An offline state with no cached entry for "p" and a loaded manifest. -/
def stOffline : CState where
  storage := []
  offlineQueue := []
  isOnline := false
  apiHashes := some { version := "1", assets := some [] }
  now := 5
  attempts := 0
  hashCalls := 0

/-- An environment whose file transport succeeds immediately with body "B". -/
def Ew200 : FetchEnv where
  transport := fun _ => .resp 200 "B" none
  hashTransport := fun _ => .throwErr
  isUrlSafe := fun _ => true
  sha256hex := fun _ => "0123456789abcdef"
  baseUrl := "https://api.test"

/-- An environment whose hashes transport answers HTTP 500. -/
def EwH500 : FetchEnv where
  transport := fun _ => .throwNet
  hashTransport := fun _ => .resp 500 false none
  isUrlSafe := fun _ => true
  sha256hex := fun _ => "0123456789abcdef"
  baseUrl := "https://api.test"

/-- Like `stHit` but with a manifest that maps no path at all, so the
cached path is absent from the manifest. -/
def stNoMap : CState where
  storage := [("api-cache:p", .entry { content := "C", etag := none, fetchedAt := 1, hash := some "0123456789abcdef" })]
  offlineQueue := []
  isOnline := true
  apiHashes := some { version := "1", assets := some [] }
  now := 5
  attempts := 0
  hashCalls := 0

/-! ## Helper lemmas about the JS-object map model -/

theorem find?_map_overwrite {α : Type} (k : String) (v : α) :
    ∀ (m : List (String × α)), m.any (fun p => p.1 == k) = true →
      (m.map (fun p => if p.1 == k then (k, v) else p)).find? (fun p => p.1 == k) =
        some (k, v) := by
  intro m
  induction m with
  | nil => intro h; simp at h
  | cons a t ih =>
    intro h
    by_cases hk : a.1 == k
    · simp [List.find?, hk]
    · simp only [List.any_cons, Bool.or_eq_true] at h
      rcases h with h | h
      · exact absurd h hk
      · simp only [List.map_cons, List.find?]
        rw [if_neg hk]
        simp only [hk, Bool.false_eq_true]
        exact ih h

theorem find?_append_fresh {α : Type} (k : String) (v : α) :
    ∀ (m : List (String × α)), m.any (fun p => p.1 == k) = false →
      (m ++ [(k, v)]).find? (fun p => p.1 == k) = some (k, v) := by
  intro m
  induction m with
  | nil => simp [List.find?]
  | cons a t ih =>
    intro h
    simp only [List.any_cons, Bool.or_eq_false_iff] at h
    simp only [List.cons_append, List.find?, h.1]
    exact ih h.2

/-- Writing a key then reading it back yields the written value. -/
theorem getKV_setKV_self {α : Type} (m : List (String × α)) (k : String) (v : α) :
    getKV (setKV m k v) k = some v := by
  unfold getKV setKV
  by_cases h : m.any (fun p => p.1 == k)
  · rw [if_pos h, find?_map_overwrite k v m h]; rfl
  · rw [if_neg h, find?_append_fresh k v m (Bool.of_not_eq_true h)]; rfl

/-! ## Helper lemmas about the split model -/

theorem splitOnColon_no_colon :
    ∀ (l : List Char), (∀ ch ∈ l, ch ≠ ':') → splitOnColon l = [l] := by
  intro l
  induction l with
  | nil => intro _; rfl
  | cons ch t ih =>
    intro h
    have hch : ch ≠ ':' := h ch (by simp)
    have ht := ih (fun x hx => h x (by simp [hx]))
    simp [splitOnColon, hch, ht]

theorem splitOnColon_append :
    ∀ (a r : List Char), (∀ ch ∈ a, ch ≠ ':') →
      splitOnColon (a ++ ':' :: r) = a :: splitOnColon r := by
  intro a r
  induction a with
  | nil => intro _; simp [splitOnColon]
  | cons ch t ih =>
    intro h
    have hch : ch ≠ ':' := h ch (by simp)
    have ht := ih (fun x hx => h x (by simp [hx]))
    simp [splitOnColon, hch, ht]

/-- Character list of an encryption envelope. -/
theorem encrypt_data (M : CryptoModel) (n : Nat) (text : String) :
    (Storage.encrypt M n text).data =
      (M.ivGen n).data ++ ':' ::
        ((M.gcmEnc (M.ivGen n) text).2.data ++ ':' ::
          (M.gcmEnc (M.ivGen n) text).1.data) := by
  simp [Storage.encrypt, String.data_append]

/-- The split of an envelope recovers its three segments. -/
theorem splitOnColon_encrypt (M : CryptoModel) (n : Nat) (text : String)
    (hiv : ∀ ch ∈ (M.ivGen n).data, ch ≠ ':')
    (htag : ∀ ch ∈ (M.gcmEnc (M.ivGen n) text).2.data, ch ≠ ':')
    (hct : ∀ ch ∈ (M.gcmEnc (M.ivGen n) text).1.data, ch ≠ ':') :
    splitOnColon (Storage.encrypt M n text).data =
      [(M.ivGen n).data, (M.gcmEnc (M.ivGen n) text).2.data,
       (M.gcmEnc (M.ivGen n) text).1.data] := by
  rw [encrypt_data, splitOnColon_append _ _ hiv, splitOnColon_append _ _ htag,
      splitOnColon_no_colon _ hct]

/-- An envelope contains a colon. -/
theorem jsIncludesColon_encrypt (M : CryptoModel) (n : Nat) (text : String) :
    jsIncludesColon (Storage.encrypt M n text) = true := by
  unfold jsIncludesColon
  rw [encrypt_data]
  simp

/-- An envelope is a nonempty string. -/
theorem encrypt_ne_empty (M : CryptoModel) (n : Nat) (text : String) :
    Storage.encrypt M n text ≠ "" := by
  intro h
  have := congrArg String.data h
  rw [encrypt_data] at this
  simp at this

/-! ## Storage behaviour lemmas -/

/-- Round-trip through the encrypted store: under the platform contracts at
the inputs actually used (JSON parse inverts stringify on this value, the
cipher outputs are colon-free hex, and GCM decryption inverts encryption at
this IV), a `setItem` followed by `getItem` on the same key returns the
stored value and leaves the state as `setItem` left it. -/
theorem roundtrip_lemma (M : CryptoModel) (st : StoreState) (k : String) (v : JVal)
    (hjson : M.parseJ (M.stringify v) = some v)
    (hiv : ∀ ch ∈ (M.ivGen st.ivCtr).data, ch ≠ ':')
    (htag : ∀ ch ∈ (M.gcmEnc (M.ivGen st.ivCtr) (M.stringify v)).2.data, ch ≠ ':')
    (hct : ∀ ch ∈ (M.gcmEnc (M.ivGen st.ivCtr) (M.stringify v)).1.data, ch ≠ ':')
    (hdec : M.gcmDec (M.ivGen st.ivCtr)
        (M.gcmEnc (M.ivGen st.ivCtr) (M.stringify v)).2
        (M.gcmEnc (M.ivGen st.ivCtr) (M.stringify v)).1 = some (M.stringify v)) :
    Storage.getItem M (Storage.setItem M st k v) k =
      (Except.ok v, Storage.setItem M st k v) := by
  have hget : getKV (Storage.setItem M st k v).data k =
      some (JVal.str (Storage.encrypt M st.ivCtr (M.stringify v))) := by
    simp [Storage.setItem, getKV_setKV_self]
  have htruthy : jsTruthy (JVal.str (Storage.encrypt M st.ivCtr (M.stringify v))) = true := by
    simp [jsTruthy, encrypt_ne_empty]
  have hdecr : Storage.decryptStr M (Storage.encrypt M st.ivCtr (M.stringify v)) =
      (some (M.stringify v), false) := by
    unfold Storage.decryptStr
    rw [jsIncludesColon_encrypt, if_pos rfl,
        splitOnColon_encrypt M st.ivCtr (M.stringify v) hiv htag hct]
    show (match M.gcmDec (M.ivGen st.ivCtr)
        (M.gcmEnc (M.ivGen st.ivCtr) (M.stringify v)).2
        (M.gcmEnc (M.ivGen st.ivCtr) (M.stringify v)).1 with
      | some plain => (some plain, false)
      | none => (none, true)) = (some (M.stringify v), false)
    rw [hdec]
  unfold Storage.getItem
  simp only [hget, htruthy, if_true, hdecr, hjson]

/-- A stored three-segment value whose GCM decryption fails wipes the store
(when the on-disk file exists) and resolves to `null`. -/
theorem getItem_wipe_lemma (M : CryptoModel) (st : StoreState) (key : String)
    (s : String) (a b c : List Char)
    (hfile : st.file.isSome = true)
    (hget : getKV st.data key = some (.str s))
    (hcolon : jsIncludesColon s = true)
    (hsplit : splitOnColon s.data = [a, b, c])
    (hdec : M.gcmDec (String.mk a) (String.mk b) (String.mk c) = none) :
    Storage.getItem M st key =
      (Except.ok .null, { data := [], file := none, ivCtr := st.ivCtr }) := by
  have hs : s ≠ "" := by
    intro h
    rw [h] at hcolon
    simp [jsIncludesColon] at hcolon
  have htruthy : jsTruthy (JVal.str s) = true := by simp [jsTruthy, hs]
  have hdecr : Storage.decryptStr M s = (none, true) := by
    unfold Storage.decryptStr
    rw [hcolon, if_pos rfl, hsplit]
    show (match M.gcmDec (String.mk a) (String.mk b) (String.mk c) with
      | some plain => (some plain, false)
      | none => (none, true)) = (none, true)
    rw [hdec]
  have hclear : Storage.clearStorage st = { data := [], file := none, ivCtr := st.ivCtr } := by
    unfold Storage.clearStorage
    match hf : st.file with
    | some f => rfl
    | none => rw [hf] at hfile; simp at hfile
  unfold Storage.getItem
  simp only [hget, htruthy, if_true, hdecr, hclear]

/-! ## Cache behaviour lemmas -/

namespace Cache

theorem isErrB_spec (r : Except FetchErr CEntry) (h : isErrB r = true) :
    ∃ e, r = .error e := by
  cases r with
  | error e => exact ⟨e, rfl⟩
  | ok c => simp [isErrB] at h

/-- A successful attempt resolves at once, persisting the entry. -/
theorem doFetch_ok (E : FetchEnv) (key : String) (cached : Option CEntry)
    (now : Nat) (p b : String) (t : Nat) (st : CState) (left : Nat) (c : CEntry)
    (h : tryBlock E cached now st.attempts = .ok c) :
    doFetch E key cached now p b t st left =
      (.success c,
       { st with attempts := st.attempts + 1,
                 storage := setKV st.storage key (.entry c) }) := by
  simp only [doFetch, h]

/-- A failed attempt with budget remaining recurses on the bumped state. -/
theorem doFetch_err_step (E : FetchEnv) (key : String) (cached : Option CEntry)
    (now : Nat) (p b : String) (t : Nat) (st : CState) (left : Nat) (e : FetchErr)
    (h : tryBlock E cached now st.attempts = .error e) :
    doFetch E key cached now p b t st (left + 1) =
      doFetch E key cached now p b t { st with attempts := st.attempts + 1 } left := by
  conv_lhs => rw [doFetch]
  simp only [h]

/-- Exhaustion with a truthy cached entry serves the stale entry. -/
theorem doFetch_exhaust_stale (E : FetchEnv) (key : String) (c : CEntry)
    (now : Nat) (p b : String) (t : Nat) (st : CState) (e : FetchErr)
    (h : tryBlock E (some c) now st.attempts = .error e)
    (hc : c.content ≠ "") :
    doFetch E key (some c) now p b t st 0 =
      (.success c, { st with attempts := st.attempts + 1 }) := by
  simp only [doFetch, h]
  simp [hc]

/-- Exhaustion with no cached entry while offline queues the request and
rethrows. -/
theorem doFetch_exhaust_queue (E : FetchEnv) (key : String)
    (now : Nat) (p b : String) (t : Nat) (st : CState) (e : FetchErr)
    (h : tryBlock E none now st.attempts = .error e)
    (hoff : st.isOnline = false) :
    doFetch E key none now p b t st 0 =
      (.error e,
       { st with attempts := st.attempts + 1,
                 offlineQueue := st.offlineQueue ++
                   [{ pathRel := p, basePath := b, ttl := t }] }) := by
  simp only [doFetch, h]
  simp [hoff]

/-- Exhaustion with no cached entry while online rethrows with no queueing. -/
theorem doFetch_exhaust_online (E : FetchEnv) (key : String)
    (now : Nat) (p b : String) (t : Nat) (st : CState) (e : FetchErr)
    (h : tryBlock E none now st.attempts = .error e)
    (hon : st.isOnline = true) :
    doFetch E key none now p b t st 0 =
      (.error e, { st with attempts := st.attempts + 1 }) := by
  simp only [doFetch, h]
  simp [hon]

/-- Consecutive failing attempts only advance the attempt counter. -/
theorem doFetch_all_fail (E : FetchEnv) (key : String) (cached : Option CEntry)
    (now : Nat) (p b : String) (t : Nat) :
    ∀ (left : Nat) (st : CState),
      (∀ j, j < left → isErrB (tryBlock E cached now (st.attempts + j)) = true) →
      doFetch E key cached now p b t st left =
        doFetch E key cached now p b t { st with attempts := st.attempts + left } 0 := by
  intro left
  induction left with
  | zero => intro st _; rfl
  | succ n ih =>
    intro st h
    obtain ⟨e, he⟩ := isErrB_spec _ (by simpa using h 0 (Nat.succ_pos n))
    rw [doFetch_err_step E key cached now p b t st n e he]
    rw [ih { st with attempts := st.attempts + 1 }
      (by intro j hj
          have := h (j + 1) (by omega)
          simpa [Nat.add_assoc, Nat.add_comm 1 j] using this)]
    have harith : st.attempts + 1 + n = st.attempts + (n + 1) := by omega
    simp only [harith]

/-- The recursive fetch never changes the online flag, and while online it
never touches the offline queue. -/
theorem doFetch_frame (E : FetchEnv) (key : String) (cached : Option CEntry)
    (now : Nat) (p b : String) (t : Nat) :
    ∀ (left : Nat) (st : CState),
      (doFetch E key cached now p b t st left).2.isOnline = st.isOnline ∧
      (st.isOnline = true →
        (doFetch E key cached now p b t st left).2.offlineQueue = st.offlineQueue) := by
  intro left
  induction left with
  | zero =>
    intro st
    cases htr : tryBlock E cached now st.attempts with
    | ok c =>
      rw [doFetch_ok E key cached now p b t st 0 c htr]
      exact ⟨rfl, fun _ => rfl⟩
    | error e =>
      cases cached with
      | some c =>
        by_cases hc : c.content = ""
        · by_cases ho : st.isOnline
          · simp only [doFetch, htr]
            simp [hc, ho]
          · simp only [doFetch, htr]
            simp [hc, Bool.eq_false_iff.mpr ho]
        · rw [doFetch_exhaust_stale E key c now p b t st e htr hc]
          exact ⟨rfl, fun _ => rfl⟩
      | none =>
        by_cases ho : st.isOnline
        · rw [doFetch_exhaust_online E key now p b t st e htr ho]
          exact ⟨rfl, fun _ => rfl⟩
        · rw [doFetch_exhaust_queue E key now p b t st e htr (Bool.eq_false_iff.mpr ho)]
          exact ⟨rfl, fun hcon => absurd hcon ho⟩
  | succ n ih =>
    intro st
    cases htr : tryBlock E cached now st.attempts with
    | ok c =>
      rw [doFetch_ok E key cached now p b t st (n + 1) c htr]
      exact ⟨rfl, fun _ => rfl⟩
    | error e =>
      rw [doFetch_err_step E key cached now p b t st n e htr]
      exact ih { st with attempts := st.attempts + 1 }

end Cache

namespace Cache

theorem tryBlock_throwNet (E : FetchEnv) (cached : Option CEntry) (now i : Nat)
    (htr : E.transport i = .throwNet) :
    tryBlock E cached now i = .error .netErr := by
  unfold tryBlock
  rw [htr]

theorem tryBlock_ok_2xx (E : FetchEnv) (cached : Option CEntry) (now i : Nat)
    (status : Nat) (body : String) (etag : Option String)
    (htr : E.transport i = .resp status body etag)
    (h1 : 200 ≤ status) (h2 : status < 300) :
    tryBlock E cached now i =
      .ok { content := body, etag := etag, fetchedAt := now,
            hash := calculateHash E body } := by
  unfold tryBlock
  rw [htr]
  have h304 : (status == 304) = false := by
    simp only [beq_eq_false_iff_ne]
    omega
  have hok : (decide (200 ≤ status) && decide (status < 300)) = true := by
    simp [h1, h2]
  cases cached with
  | some c => simp only [h304, Bool.false_eq_true, if_false, hok, if_true]
  | none => simp only [hok, if_true]

theorem tryBlock_status_err (E : FetchEnv) (cached : Option CEntry) (now i : Nat)
    (status : Nat) (body : String) (etag : Option String)
    (htr : E.transport i = .resp status body etag)
    (hnok : ¬(200 ≤ status ∧ status < 300)) (h304 : status ≠ 304) :
    tryBlock E cached now i = .error (statusErr status) := by
  unfold tryBlock statusErr
  rw [htr]
  have h304b : (status == 304) = false := by simp [beq_eq_false_iff_ne, h304]
  have hok : (decide (200 ≤ status) && decide (status < 300)) = false := by
    rcases Decidable.not_and_iff_or_not.mp hnok with h | h <;> simp [h]
  cases cached with
  | some c =>
    simp only [h304b, Bool.false_eq_true, if_false, hok]
    by_cases h404 : (status == 404) = true <;> by_cases h429 : (status == 429) = true <;>
      simp [h404, h429]
  | none =>
    simp only [hok, Bool.false_eq_true, if_false]
    by_cases h404 : (status == 404) = true <;> by_cases h429 : (status == 429) = true <;>
      simp [h404, h429]

/-- The hashes fetch never touches the queue or the online flag. -/
theorem fetchHashes_frame (E : FetchEnv) (st : CState) :
    (fetchHashesFromAPI E st).2.isOnline = st.isOnline ∧
    (fetchHashesFromAPI E st).2.offlineQueue = st.offlineQueue := by
  simp only [fetchHashesFromAPI]
  split
  · exact ⟨rfl, rfl⟩
  · cases htr : E.hashTransport st.hashCalls with
    | throwErr => simp [htr]
    | resp status success data =>
      simp only [htr]
      split
      · split
        · cases data with
          | some d => exact ⟨rfl, rfl⟩
          | none => exact ⟨rfl, rfl⟩
        · exact ⟨rfl, rfl⟩
      · exact ⟨rfl, rfl⟩

/-- The manifest-loading stage never touches the queue or the online flag. -/
theorem hashStage_frame (E : FetchEnv) (st : CState) :
    (hashStage E st).isOnline = st.isOnline ∧
    (hashStage E st).offlineQueue = st.offlineQueue := by
  unfold hashStage
  cases hh : st.apiHashes with
  | none => exact ⟨(fetchHashes_frame E st).1, (fetchHashes_frame E st).2⟩
  | some hd0 => exact ⟨rfl, rfl⟩

/-- When the manifest global is already set, the loading stage is a no-op. -/
theorem hashStage_some (E : FetchEnv) (st : CState) (hd0 : HashData)
    (hh : st.apiHashes = some hd0) : hashStage E st = st := by
  unfold hashStage
  rw [hh]

/-- The full fetch operation never flips the online flag and, while online,
never touches the offline queue. -/
theorem apiFetch_frame (E : FetchEnv) (st : CState) (pathRel basePath : String)
    (ttl : Nat) :
    (apiFetchWithCache E st pathRel basePath ttl).2.isOnline = st.isOnline ∧
    (st.isOnline = true →
      (apiFetchWithCache E st pathRel basePath ttl).2.offlineQueue = st.offlineQueue) := by
  simp only [apiFetchWithCache]
  split
  · exact ⟨rfl, fun _ => rfl⟩
  · split
    · split
      · exact ⟨(hashStage_frame E st).1, fun _ => (hashStage_frame E st).2⟩
      · exact ⟨(hashStage_frame E st).1, fun _ => (hashStage_frame E st).2⟩
    · have hdf := doFetch_frame E (storagePrefixStr ++ pathRel)
        (getEntry st.storage (storagePrefixStr ++ pathRel)) st.now
        pathRel basePath ttl maxRetries (hashStage E st)
      refine ⟨hdf.1.trans (hashStage_frame E st).1, fun ho => ?_⟩
      rw [hdf.2 (by rw [(hashStage_frame E st).1, ho]),
          (hashStage_frame E st).2]

end Cache

namespace Cache

theorem validStage_match (E : FetchEnv) (st2 : CState) (c : CEntry)
    (filePath : String) (hd : HashData) (assets : List (String × String))
    (dig : String)
    (hh : st2.apiHashes = some hd) (ha : hd.assets = some assets)
    (hcont : c.content ≠ "")
    (hlook : getKV assets (normPath filePath) = some dig)
    (hmatch : calculateHash E c.content = some dig) :
    validStage E st2 (some c) filePath = true := by
  unfold validStage validateFileHash
  by_cases hdig : (dig == "") = true <;>
    simp [hh, ha, hlook, hmatch, hcont, hdig]

theorem validStage_absent (E : FetchEnv) (st2 : CState) (c : CEntry)
    (filePath : String) (hd : HashData) (assets : List (String × String))
    (hh : st2.apiHashes = some hd) (ha : hd.assets = some assets)
    (hcont : c.content ≠ "")
    (hlook : getKV assets (normPath filePath) = none) :
    validStage E st2 (some c) filePath = true := by
  unfold validStage validateFileHash
  simp [hh, ha, hlook, hcont]

theorem validStage_mismatch (E : FetchEnv) (st2 : CState) (c : CEntry)
    (filePath : String) (hd : HashData) (assets : List (String × String))
    (dig : String)
    (hh : st2.apiHashes = some hd) (ha : hd.assets = some assets)
    (hlook : getKV assets (normPath filePath) = some dig)
    (hdig : dig ≠ "")
    (hmm : calculateHash E c.content ≠ some dig) :
    validStage E st2 (some c) filePath = false := by
  unfold validStage validateFileHash
  by_cases hcont : c.content = ""
  · simp [hh, hcont]
  · cases hact : calculateHash E c.content with
    | none => simp [hh, ha, hlook, hcont, hdig, hact]
    | some actual =>
      have hne : actual ≠ dig := by
        intro h
        exact hmm (by rw [hact, h])
      simp [hh, ha, hlook, hcont, hdig, hact, hne]

theorem validStage_nocache (E : FetchEnv) (st2 : CState) (filePath : String) :
    validStage E st2 none filePath = false := rfl

/-- A validated cache entry is served as-is, with no file fetch. -/
theorem apiFetch_served (E : FetchEnv) (st : CState) (pathRel basePath : String)
    (ttl : Nat) (c : CEntry)
    (hsafe : E.isUrlSafe (urlOf E (basePath ++ pathRel)) = true)
    (hcached : getEntry st.storage (storagePrefixStr ++ pathRel) = some c)
    (hval : validStage E (hashStage E st) (some c) (basePath ++ pathRel) = true) :
    apiFetchWithCache E st pathRel basePath ttl = (.success c, hashStage E st) := by
  simp only [apiFetchWithCache, hcached, hsafe, hval, Bool.not_true,
    Bool.false_eq_true, if_false, if_true]

/-- A failed validation hands control to `doFetch` with the full budget. -/
theorem apiFetch_doFetch (E : FetchEnv) (st : CState) (pathRel basePath : String)
    (ttl : Nat)
    (hsafe : E.isUrlSafe (urlOf E (basePath ++ pathRel)) = true)
    (hval : validStage E (hashStage E st)
      (getEntry st.storage (storagePrefixStr ++ pathRel)) (basePath ++ pathRel) = false) :
    apiFetchWithCache E st pathRel basePath ttl =
      doFetch E (storagePrefixStr ++ pathRel)
        (getEntry st.storage (storagePrefixStr ++ pathRel)) st.now
        pathRel basePath ttl (hashStage E st) maxRetries := by
  simp only [apiFetchWithCache, hsafe, hval, Bool.not_true,
    Bool.false_eq_true, if_false]

/-- Replaying a list of requests on an online state keeps the state online
and leaves the queue exactly as it was. -/
theorem foldReplay_frame (E : FetchEnv) :
    ∀ (q : List QEntry) (st : CState), st.isOnline = true →
      ((q.foldl (fun s qe => (apiFetchWithCache E s qe.pathRel qe.basePath qe.ttl).2) st).isOnline = true ∧
       (q.foldl (fun s qe => (apiFetchWithCache E s qe.pathRel qe.basePath qe.ttl).2) st).offlineQueue = st.offlineQueue) := by
  intro q
  induction q with
  | nil => intro st h; exact ⟨h, rfl⟩
  | cons a t ih =>
    intro st h
    simp only [List.foldl_cons]
    have hf := apiFetch_frame E st a.pathRel a.basePath a.ttl
    have h1 : (apiFetchWithCache E st a.pathRel a.basePath a.ttl).2.isOnline = true :=
      hf.1.trans h
    obtain ⟨hon, hq⟩ := ih _ h1
    exact ⟨hon, hq.trans (hf.2 h)⟩

end Cache

/-! ## Claims about `js/storage.js` -/

/-- C5: for every JSON-serializable value `v` and every key `k`,
`setItem(k, v)` followed by `getItem(k)` on the same EncryptedStore returns
a value deep-equal to `v` (equality of `JVal` documents is deep equality),
under the standard platform contracts at the inputs used: JSON parsing
inverts serialization on `v`, the cipher emits colon-free hex segments, and
GCM decryption inverts encryption at the drawn IV. -/
theorem claim_C5_set_get_roundtrip (M : CryptoModel) (st : StoreState)
    (k : String) (v : JVal)
    (hjson : M.parseJ (M.stringify v) = some v)
    (hiv : ∀ ch ∈ (M.ivGen st.ivCtr).data, ch ≠ ':')
    (htag : ∀ ch ∈ (M.gcmEnc (M.ivGen st.ivCtr) (M.stringify v)).2.data, ch ≠ ':')
    (hct : ∀ ch ∈ (M.gcmEnc (M.ivGen st.ivCtr) (M.stringify v)).1.data, ch ≠ ':')
    (hdec : M.gcmDec (M.ivGen st.ivCtr)
        (M.gcmEnc (M.ivGen st.ivCtr) (M.stringify v)).2
        (M.gcmEnc (M.ivGen st.ivCtr) (M.stringify v)).1 = some (M.stringify v)) :
    (Storage.getItem M (Storage.setItem M st k v) k).1 = Except.ok v := by
  rw [roundtrip_lemma M st k v hjson hiv htag hct hdec]

theorem claim_C5_set_get_roundtrip_witness :
    Mw.parseJ (Mw.stringify (.num 7)) = some (.num 7) ∧
    (∀ ch ∈ (Mw.ivGen 0).data, ch ≠ ':') ∧
    (Storage.getItem Mw
      (Storage.setItem Mw { data := [], file := none, ivCtr := 0 } "k" (.num 7))
      "k").1 = Except.ok (.num 7) :=
  ⟨rfl, by decide,
   claim_C5_set_get_roundtrip Mw { data := [], file := none, ivCtr := 0 } "k"
     (.num 7) rfl (by decide) (by decide) (by decide) rfl⟩

/-- C4: a failing authenticated decryption during `getItem` (the stored
value is a three-segment envelope whose GCM decryption throws) wipes the
whole store — on-disk file deleted, in-memory map reset — and the call
returns `null` instead of propagating; a `getItem` on an absent key returns
`null` with the state untouched; and after such a wipe a `setItem`/`getItem`
pair on a fresh key round-trips. The wipe conjunct assumes the on-disk file
exists, which holds whenever the tampered ciphertext came from that file
(`clearStorage` skips its body otherwise, cf. C10). -/
theorem claim_C4_decrypt_failure_wipes (M : CryptoModel) :
    (∀ (st : StoreState) (key s : String) (a b c : List Char),
      st.file.isSome = true →
      getKV st.data key = some (.str s) →
      jsIncludesColon s = true →
      splitOnColon s.data = [a, b, c] →
      M.gcmDec (String.mk a) (String.mk b) (String.mk c) = none →
      Storage.getItem M st key =
        (Except.ok .null, { data := [], file := none, ivCtr := st.ivCtr })) ∧
    (∀ (st : StoreState) (key : String),
      getKV st.data key = none →
      Storage.getItem M st key = (Except.ok .null, st)) ∧
    (∀ (st : StoreState) (key s : String) (a b c : List Char) (k2 : String) (v2 : JVal),
      st.file.isSome = true →
      getKV st.data key = some (.str s) →
      jsIncludesColon s = true →
      splitOnColon s.data = [a, b, c] →
      M.gcmDec (String.mk a) (String.mk b) (String.mk c) = none →
      M.parseJ (M.stringify v2) = some v2 →
      (∀ ch ∈ (M.ivGen st.ivCtr).data, ch ≠ ':') →
      (∀ ch ∈ (M.gcmEnc (M.ivGen st.ivCtr) (M.stringify v2)).2.data, ch ≠ ':') →
      (∀ ch ∈ (M.gcmEnc (M.ivGen st.ivCtr) (M.stringify v2)).1.data, ch ≠ ':') →
      M.gcmDec (M.ivGen st.ivCtr)
        (M.gcmEnc (M.ivGen st.ivCtr) (M.stringify v2)).2
        (M.gcmEnc (M.ivGen st.ivCtr) (M.stringify v2)).1 = some (M.stringify v2) →
      (Storage.getItem M st key).1 = Except.ok .null ∧
      (Storage.getItem M
        (Storage.setItem M (Storage.getItem M st key).2 k2 v2) k2).1 = Except.ok v2) := by
  refine ⟨?_, ?_, ?_⟩
  · intro st key s a b c hfile hget hcolon hsplit hdec
    exact getItem_wipe_lemma M st key s a b c hfile hget hcolon hsplit hdec
  · intro st key h
    unfold Storage.getItem
    rw [h]
  · intro st key s a b c k2 v2 hfile hget hcolon hsplit hdec hjson hiv htag hct hdec2
    have hw := getItem_wipe_lemma M st key s a b c hfile hget hcolon hsplit hdec
    constructor
    · rw [hw]
    · rw [hw]
      exact congrArg Prod.fst
        (roundtrip_lemma M { data := [], file := none, ivCtr := st.ivCtr } k2 v2
          hjson hiv htag hct hdec2)

theorem claim_C4_decrypt_failure_wipes_witness :
    stTampered.file.isSome = true ∧
    getKV stTampered.data "k" = some (.str "IV:Tx:y") ∧
    Mw.gcmDec "IV" "Tx" "y" = none ∧
    Storage.getItem Mw stTampered "k" =
      (Except.ok .null, { data := [], file := none, ivCtr := 0 }) ∧
    getKV stTampered.data "fresh" = none ∧
    Storage.getItem Mw stTampered "fresh" = (Except.ok .null, stTampered) ∧
    (Storage.getItem Mw
      (Storage.setItem Mw (Storage.getItem Mw stTampered "k").2 "k2" (.num 7))
      "k2").1 = Except.ok (.num 7) :=
  ⟨rfl, rfl, rfl,
   (claim_C4_decrypt_failure_wipes Mw).1 stTampered "k" "IV:Tx:y"
     "IV".data "Tx".data "y".data rfl rfl (by decide) (by decide) rfl,
   rfl,
   (claim_C4_decrypt_failure_wipes Mw).2.1 stTampered "fresh" rfl,
   ((claim_C4_decrypt_failure_wipes Mw).2.2 stTampered "k" "IV:Tx:y"
     "IV".data "Tx".data "y".data "k2" (.num 7) rfl rfl (by decide) (by decide)
     rfl rfl (by decide) (by decide) (by decide) rfl).2⟩

/-- C3 (code bug): the claim says a stored string without a separator that
fails legacy decryption is kept unchanged by migration. In `stMig`, the key
"b" holds "BB", which contains no colon and fails legacy decryption, while
"a" holds a successfully migrating legacy value; after `migrateOldData` the
key "b" is gone. `decryptLegacy` returns `null` instead of throwing, so the
loop's catch branch — whose comment says the value is kept — never runs,
and a falsy result simply never assigns `newData[key]`. -/
theorem claim_C3_migration_drops_failed_legacy :
    getKV stMig.data "b" = some (.str "BB") ∧
    jsIncludesColon "BB" = false ∧
    Mw.cbcDecLegacy "BB" = none ∧
    getKV (Storage.migrateOldData Mw stMig).data "b" = none :=
  ⟨rfl, by decide, rfl, rfl⟩

/-- C10: `clearStorage` deletes the file and resets the in-memory map only
when the on-disk file exists; when the file is already absent the store
state — including all loaded entries — is left completely unchanged. -/
theorem claim_C10_clear_only_when_file_exists :
    (∀ st : StoreState, st.file = none → Storage.clearStorage st = st) ∧
    (∀ (st : StoreState) (f : List (String × JVal)), st.file = some f →
      Storage.clearStorage st = { data := [], file := none, ivCtr := st.ivCtr }) := by
  constructor
  · intro st h
    unfold Storage.clearStorage
    rw [h]
  · intro st f h
    unfold Storage.clearStorage
    rw [h]

theorem claim_C10_clear_only_when_file_exists_witness :
    ({ data := [("x", JVal.num 1)], file := none, ivCtr := 3 } : StoreState).file = none ∧
    Storage.clearStorage { data := [("x", JVal.num 1)], file := none, ivCtr := 3 } =
      { data := [("x", JVal.num 1)], file := none, ivCtr := 3 } ∧
    Storage.clearStorage stTampered = { data := [], file := none, ivCtr := 0 } :=
  ⟨rfl,
   (claim_C10_clear_only_when_file_exists).1
     { data := [("x", JVal.num 1)], file := none, ivCtr := 3 } rfl,
   (claim_C10_clear_only_when_file_exists).2 stTampered
     [("k", .str "IV:Tx:y")] rfl⟩

namespace Cache

/-- Running `k` failing attempts consumes `k` units of budget and advances
the attempt counter by `k`. -/
theorem doFetch_fail_k (E : FetchEnv) (key : String) (cached : Option CEntry)
    (now : Nat) (p b : String) (t : Nat) :
    ∀ (k : Nat) (left : Nat) (st : CState), k ≤ left →
      (∀ j, j < k → isErrB (tryBlock E cached now (st.attempts + j)) = true) →
      doFetch E key cached now p b t st left =
        doFetch E key cached now p b t { st with attempts := st.attempts + k } (left - k) := by
  intro k
  induction k with
  | zero => intro left st _ _; rfl
  | succ n ih =>
    intro left st hk h
    obtain ⟨left0, rfl⟩ : ∃ left0, left = left0 + 1 :=
      ⟨left - 1, by omega⟩
    obtain ⟨e, he⟩ := isErrB_spec _ (by simpa using h 0 (Nat.succ_pos n))
    rw [doFetch_err_step E key cached now p b t st left0 e he]
    rw [ih left0 { st with attempts := st.attempts + 1 } (by omega)
      (by intro j hj
          have := h (j + 1) (by omega)
          simpa [Nat.add_assoc, Nat.add_comm 1 j] using this)]
    have h1 : st.attempts + 1 + n = st.attempts + (n + 1) := by omega
    have h2 : left0 - n = left0 + 1 - (n + 1) := by omega
    rw [h1, h2]

/-- Reduction of the full fetch when the key has no cached entry and the
manifest global is already loaded. -/
theorem apiFetch_nocache (E : FetchEnv) (st : CState) (pathRel basePath : String)
    (ttl : Nat) (hd : HashData)
    (hsafe : E.isUrlSafe (urlOf E (basePath ++ pathRel)) = true)
    (hh : st.apiHashes = some hd)
    (hcached : getEntry st.storage (storagePrefixStr ++ pathRel) = none) :
    apiFetchWithCache E st pathRel basePath ttl =
      doFetch E (storagePrefixStr ++ pathRel) none st.now pathRel basePath ttl
        st maxRetries := by
  have hv : validStage E (hashStage E st)
      (getEntry st.storage (storagePrefixStr ++ pathRel)) (basePath ++ pathRel) = false := by
    rw [hcached]
    exact validStage_nocache E (hashStage E st) (basePath ++ pathRel)
  rw [apiFetch_doFetch E st pathRel basePath ttl hsafe hv, hcached,
      hashStage_some E st hd hh]

/-- Reduction of the full fetch when the cached entry fails hash
validation against the loaded manifest. -/
theorem apiFetch_mismatch (E : FetchEnv) (st : CState) (pathRel basePath : String)
    (ttl : Nat) (hd : HashData) (assets : List (String × String)) (dig : String)
    (c : CEntry)
    (hsafe : E.isUrlSafe (urlOf E (basePath ++ pathRel)) = true)
    (hh : st.apiHashes = some hd)
    (ha : hd.assets = some assets)
    (hcached : getEntry st.storage (storagePrefixStr ++ pathRel) = some c)
    (hlook : getKV assets (normPath (basePath ++ pathRel)) = some dig)
    (hdig : dig ≠ "")
    (hmm : calculateHash E c.content ≠ some dig) :
    apiFetchWithCache E st pathRel basePath ttl =
      doFetch E (storagePrefixStr ++ pathRel) (some c) st.now pathRel basePath ttl
        st maxRetries := by
  have hv : validStage E (hashStage E st)
      (getEntry st.storage (storagePrefixStr ++ pathRel)) (basePath ++ pathRel) = false := by
    rw [hcached, hashStage_some E st hd hh]
    exact validStage_mismatch E st c (basePath ++ pathRel) hd assets dig hh ha hlook hdig hmm
  rw [apiFetch_doFetch E st pathRel basePath ttl hsafe hv, hcached,
      hashStage_some E st hd hh]

end Cache

namespace Cache

/-- Shared helper: with no usable cache, a loaded manifest and a transport
answering the same non-OK, non-304 status on each of the four consulted
attempt indices, the fetch surfaces that status's error kind after exactly
four transport attempts. -/
theorem apiFetch_const_status (E : FetchEnv) (st : CState)
    (pathRel basePath : String) (ttl : Nat) (hd : HashData) (status : Nat)
    (bodies : Nat → String) (etags : Nat → Option String)
    (hsafe : E.isUrlSafe (urlOf E (basePath ++ pathRel)) = true)
    (hh : st.apiHashes = some hd)
    (hcached : getEntry st.storage (storagePrefixStr ++ pathRel) = none)
    (honline : st.isOnline = true)
    (hnok : ¬(200 ≤ status ∧ status < 300))
    (h304 : status ≠ 304)
    (htr : ∀ j, j ≤ 3 → E.transport (st.attempts + j) = .resp status (bodies j) (etags j)) :
    (apiFetchWithCache E st pathRel basePath ttl).1 = .error (statusErr status) ∧
    (apiFetchWithCache E st pathRel basePath ttl).2.attempts = st.attempts + 4 := by
  have herr : ∀ j, j ≤ 3 →
      tryBlock E none st.now (st.attempts + j) = .error (statusErr status) := by
    intro j hj
    exact tryBlock_status_err E none st.now (st.attempts + j) status (bodies j)
      (etags j) (htr j hj) hnok h304
  rw [apiFetch_nocache E st pathRel basePath ttl hd hsafe hh hcached]
  rw [doFetch_fail_k E (storagePrefixStr ++ pathRel) none st.now pathRel basePath
      ttl 3 maxRetries st (by decide)
      (fun j hj => by rw [herr j (by omega)]; rfl)]
  rw [show maxRetries - 3 = 0 from rfl]
  rw [doFetch_exhaust_online E (storagePrefixStr ++ pathRel) st.now pathRel
      basePath ttl { st with attempts := st.attempts + 3 } (statusErr status)
      (herr 3 (by omega)) honline]
  exact ⟨rfl, rfl⟩

end Cache

/-! ## Claims about `src/main/cache.js` -/

/-- C1 (counterexample): against a transport that answers 404 on every
attempt, with no cached entry, the call issues four transport attempts —
one initial plus three retries — before the not-found error surfaces. The
claim's "no retry attempt" for a 404 is therefore false: the thrown
not-found error is caught by `doFetch`'s own catch block, which retries it
like any other failure. -/
theorem claim_C1_counterexample :
    (Cache.apiFetchWithCache Ew404 st0 "p" "" 0).1 = .error .notFound ∧
    (Cache.apiFetchWithCache Ew404 st0 "p" "" 0).2.attempts = 4 := by
  constructor <;> decide

/-- C1 (amended): an HTTP 404 surfaces as a not-found error and an HTTP 429
as a rate-limit error of a distinct kind, but neither is terminal: both are
retried like any other failure, and the error surfaces only once the retry
budget is exhausted, after four transport attempts. -/
theorem claim_C1_distinct_kinds_both_retried (E : FetchEnv) :
    (∀ (st : CState) (pathRel basePath : String) (ttl : Nat) (hd : HashData)
       (bodies : Nat → String) (etags : Nat → Option String),
      E.isUrlSafe (Cache.urlOf E (basePath ++ pathRel)) = true →
      st.apiHashes = some hd →
      Cache.getEntry st.storage (Cache.storagePrefixStr ++ pathRel) = none →
      st.isOnline = true →
      (∀ j, j ≤ 3 → E.transport (st.attempts + j) = .resp 404 (bodies j) (etags j)) →
      (Cache.apiFetchWithCache E st pathRel basePath ttl).1 = .error .notFound ∧
      (Cache.apiFetchWithCache E st pathRel basePath ttl).2.attempts = st.attempts + 4) ∧
    (∀ (st : CState) (pathRel basePath : String) (ttl : Nat) (hd : HashData)
       (bodies : Nat → String) (etags : Nat → Option String),
      E.isUrlSafe (Cache.urlOf E (basePath ++ pathRel)) = true →
      st.apiHashes = some hd →
      Cache.getEntry st.storage (Cache.storagePrefixStr ++ pathRel) = none →
      st.isOnline = true →
      (∀ j, j ≤ 3 → E.transport (st.attempts + j) = .resp 429 (bodies j) (etags j)) →
      (Cache.apiFetchWithCache E st pathRel basePath ttl).1 = .error .rateLimited ∧
      (Cache.apiFetchWithCache E st pathRel basePath ttl).2.attempts = st.attempts + 4) ∧
    FetchErr.notFound ≠ FetchErr.rateLimited := by
  refine ⟨?_, ?_, by decide⟩
  · intro st pathRel basePath ttl hd bodies etags hsafe hh hcached honline htr
    exact Cache.apiFetch_const_status E st pathRel basePath ttl hd 404 bodies etags
      hsafe hh hcached honline (by omega) (by omega) htr
  · intro st pathRel basePath ttl hd bodies etags hsafe hh hcached honline htr
    exact Cache.apiFetch_const_status E st pathRel basePath ttl hd 429 bodies etags
      hsafe hh hcached honline (by omega) (by omega) htr

theorem claim_C1_distinct_kinds_both_retried_witness :
    Ew404.isUrlSafe (Cache.urlOf Ew404 ("" ++ "p")) = true ∧
    st0.apiHashes = some { version := "1", assets := some [] } ∧
    Cache.getEntry st0.storage (Cache.storagePrefixStr ++ "p") = none ∧
    (∀ j, j ≤ 3 → Ew404.transport (st0.attempts + j) = .resp 404 "nf" none) ∧
    (Cache.apiFetchWithCache Ew404 st0 "p" "" 0).1 = .error .notFound ∧
    (Cache.apiFetchWithCache Ew404 st0 "p" "" 0).2.attempts = st0.attempts + 4 ∧
    (Cache.apiFetchWithCache Ew429 st0 "p" "" 0).1 = .error .rateLimited :=
  ⟨rfl, rfl, rfl, fun _ _ => rfl,
   ((claim_C1_distinct_kinds_both_retried Ew404).1 st0 "p" "" 0
     { version := "1", assets := some [] } (fun _ => "nf") (fun _ => none)
     rfl rfl rfl rfl (fun _ _ => rfl)).1,
   ((claim_C1_distinct_kinds_both_retried Ew404).1 st0 "p" "" 0
     { version := "1", assets := some [] } (fun _ => "nf") (fun _ => none)
     rfl rfl rfl rfl (fun _ _ => rfl)).2,
   ((claim_C1_distinct_kinds_both_retried Ew429).2.1 st0 "p" "" 0
     { version := "1", assets := some [] } (fun _ => "slow down") (fun _ => none)
     rfl rfl rfl rfl (fun _ _ => rfl)).1⟩

/-- C2 (counterexample): against a transport that fails on the first three
attempts and would succeed on the fourth, the call does make that fourth
attempt and returns its successful payload — the claim's "no 4th attempt is
made (retry budget = 3) and the call surfaces a transient fetch failure" is
false. The budget of 3 counts retries after the initial attempt, so four
transport attempts are issued in total. -/
theorem claim_C2_counterexample :
    (Cache.apiFetchWithCache Ew2 st0 "p" "" 0).1 =
      .success { content := "B", etag := none, fetchedAt := 5,
                 hash := some "0123456789abcdef" } ∧
    (Cache.apiFetchWithCache Ew2 st0 "p" "" 0).2.attempts = 4 := by
  constructor <;> decide

/-- C2 (amended): the retry budget is 3 retries after the initial attempt,
i.e. at most 4 transport attempts per call. With no usable cached entry:
if the first 4 attempts fail, no 5th attempt is made (the attempt counter
advances by exactly 4, whatever the transport would answer at later
indices) and the transient failure surfaces; if the request fails twice and
succeeds on the next attempt, the call returns the successful payload after
exactly 3 attempts. -/
theorem claim_C2_retry_budget_is_four_attempts (E : FetchEnv) :
    (∀ (st : CState) (pathRel basePath : String) (ttl : Nat) (hd : HashData)
       (e : FetchErr),
      E.isUrlSafe (Cache.urlOf E (basePath ++ pathRel)) = true →
      st.apiHashes = some hd →
      Cache.getEntry st.storage (Cache.storagePrefixStr ++ pathRel) = none →
      st.isOnline = true →
      (∀ j, j < 3 → Cache.isErrB (Cache.tryBlock E none st.now (st.attempts + j)) = true) →
      Cache.tryBlock E none st.now (st.attempts + 3) = .error e →
      (Cache.apiFetchWithCache E st pathRel basePath ttl).1 = .error e ∧
      (Cache.apiFetchWithCache E st pathRel basePath ttl).2.attempts = st.attempts + 4) ∧
    (∀ (st : CState) (pathRel basePath : String) (ttl : Nat) (hd : HashData)
       (c : CEntry),
      E.isUrlSafe (Cache.urlOf E (basePath ++ pathRel)) = true →
      st.apiHashes = some hd →
      Cache.getEntry st.storage (Cache.storagePrefixStr ++ pathRel) = none →
      (∀ j, j < 2 → Cache.isErrB (Cache.tryBlock E none st.now (st.attempts + j)) = true) →
      Cache.tryBlock E none st.now (st.attempts + 2) = .ok c →
      (Cache.apiFetchWithCache E st pathRel basePath ttl).1 = .success c ∧
      (Cache.apiFetchWithCache E st pathRel basePath ttl).2.attempts = st.attempts + 3) := by
  constructor
  · intro st pathRel basePath ttl hd e hsafe hh hcached honline hfails hlast
    rw [Cache.apiFetch_nocache E st pathRel basePath ttl hd hsafe hh hcached]
    rw [Cache.doFetch_fail_k E (Cache.storagePrefixStr ++ pathRel) none st.now
        pathRel basePath ttl 3 Cache.maxRetries st (by decide)
        (fun j hj => hfails j hj)]
    rw [show Cache.maxRetries - 3 = 0 from rfl]
    rw [Cache.doFetch_exhaust_online E (Cache.storagePrefixStr ++ pathRel) st.now
        pathRel basePath ttl { st with attempts := st.attempts + 3 } e hlast honline]
    exact ⟨rfl, rfl⟩
  · intro st pathRel basePath ttl hd c hsafe hh hcached hfails hok
    rw [Cache.apiFetch_nocache E st pathRel basePath ttl hd hsafe hh hcached]
    rw [Cache.doFetch_fail_k E (Cache.storagePrefixStr ++ pathRel) none st.now
        pathRel basePath ttl 2 Cache.maxRetries st (by decide)
        (fun j hj => hfails j hj)]
    rw [Cache.doFetch_ok E (Cache.storagePrefixStr ++ pathRel) none st.now
        pathRel basePath ttl { st with attempts := st.attempts + 2 }
        (Cache.maxRetries - 2) c hok]
    exact ⟨rfl, rfl⟩

theorem claim_C2_retry_budget_is_four_attempts_witness :
    (∀ j, j < 3 → Cache.isErrB (Cache.tryBlock EwDown none st0.now (st0.attempts + j)) = true) ∧
    Cache.tryBlock EwDown none st0.now (st0.attempts + 3) = .error .netErr ∧
    (Cache.apiFetchWithCache EwDown st0 "p" "" 0).1 = .error .netErr ∧
    (Cache.apiFetchWithCache EwDown st0 "p" "" 0).2.attempts = st0.attempts + 4 ∧
    Cache.tryBlock Ew3 none st0.now (st0.attempts + 2) =
      .ok { content := "B", etag := none, fetchedAt := 5, hash := some "0123456789abcdef" } ∧
    (Cache.apiFetchWithCache Ew3 st0 "p" "" 0).1 =
      .success { content := "B", etag := none, fetchedAt := 5, hash := some "0123456789abcdef" } ∧
    (Cache.apiFetchWithCache Ew3 st0 "p" "" 0).2.attempts = st0.attempts + 3 :=
  ⟨by decide, rfl,
   ((claim_C2_retry_budget_is_four_attempts EwDown).1 st0 "p" "" 0
     { version := "1", assets := some [] } .netErr rfl rfl rfl rfl
     (by decide) rfl).1,
   ((claim_C2_retry_budget_is_four_attempts EwDown).1 st0 "p" "" 0
     { version := "1", assets := some [] } .netErr rfl rfl rfl rfl
     (by decide) rfl).2,
   rfl,
   ((claim_C2_retry_budget_is_four_attempts Ew3).2 st0 "p" "" 0
     { version := "1", assets := some [] }
     { content := "B", etag := none, fetchedAt := 5, hash := some "0123456789abcdef" }
     rfl rfl rfl (by decide) rfl).1,
   ((claim_C2_retry_budget_is_four_attempts Ew3).2 st0 "p" "" 0
     { version := "1", assets := some [] }
     { content := "B", etag := none, fetchedAt := 5, hash := some "0123456789abcdef" }
     rfl rfl rfl (by decide) rfl).2⟩

/-- C6: with the manifest loaded, a cached entry whose recomputed digest
(first 16 hex characters of SHA-256) equals the manifest digest for the
normalized (leading-slash-stripped) path is served with no file-transport
request and no state change at all; a cached entry whose digest differs
triggers exactly one file refetch when the server answers 2xx (one new
transport attempt, the fresh payload persisted and returned); and a cached
path absent from the manifest is treated as fresh and served without a
refetch. -/
theorem claim_C6_hash_validation (E : FetchEnv) :
    (∀ (st : CState) (pathRel basePath : String) (ttl : Nat) (hd : HashData)
       (assets : List (String × String)) (dig : String) (c : CEntry),
      E.isUrlSafe (Cache.urlOf E (basePath ++ pathRel)) = true →
      st.apiHashes = some hd →
      hd.assets = some assets →
      Cache.getEntry st.storage (Cache.storagePrefixStr ++ pathRel) = some c →
      c.content ≠ "" →
      getKV assets (Cache.normPath (basePath ++ pathRel)) = some dig →
      Cache.calculateHash E c.content = some dig →
      Cache.apiFetchWithCache E st pathRel basePath ttl = (.success c, st)) ∧
    (∀ (st : CState) (pathRel basePath : String) (ttl : Nat) (hd : HashData)
       (assets : List (String × String)) (dig : String) (c : CEntry)
       (status : Nat) (body : String) (etag : Option String),
      E.isUrlSafe (Cache.urlOf E (basePath ++ pathRel)) = true →
      st.apiHashes = some hd →
      hd.assets = some assets →
      Cache.getEntry st.storage (Cache.storagePrefixStr ++ pathRel) = some c →
      getKV assets (Cache.normPath (basePath ++ pathRel)) = some dig →
      dig ≠ "" →
      Cache.calculateHash E c.content ≠ some dig →
      E.transport st.attempts = .resp status body etag →
      200 ≤ status → status < 300 →
      Cache.apiFetchWithCache E st pathRel basePath ttl =
        (.success { content := body, etag := etag, fetchedAt := st.now,
                    hash := Cache.calculateHash E body },
         { st with attempts := st.attempts + 1,
                   storage := setKV st.storage (Cache.storagePrefixStr ++ pathRel)
                     (.entry { content := body, etag := etag, fetchedAt := st.now,
                               hash := Cache.calculateHash E body }) })) ∧
    (∀ (st : CState) (pathRel basePath : String) (ttl : Nat) (hd : HashData)
       (assets : List (String × String)) (c : CEntry),
      E.isUrlSafe (Cache.urlOf E (basePath ++ pathRel)) = true →
      st.apiHashes = some hd →
      hd.assets = some assets →
      Cache.getEntry st.storage (Cache.storagePrefixStr ++ pathRel) = some c →
      c.content ≠ "" →
      getKV assets (Cache.normPath (basePath ++ pathRel)) = none →
      Cache.apiFetchWithCache E st pathRel basePath ttl = (.success c, st)) := by
  refine ⟨?_, ?_, ?_⟩
  · intro st pathRel basePath ttl hd assets dig c hsafe hh ha hcached hcont hlook hmatch
    have hval : Cache.validStage E (Cache.hashStage E st) (some c) (basePath ++ pathRel) = true := by
      rw [Cache.hashStage_some E st hd hh]
      exact Cache.validStage_match E st c (basePath ++ pathRel) hd assets dig
        hh ha hcont hlook hmatch
    rw [Cache.apiFetch_served E st pathRel basePath ttl c hsafe hcached hval,
        Cache.hashStage_some E st hd hh]
  · intro st pathRel basePath ttl hd assets dig c status body etag
      hsafe hh ha hcached hlook hdig hmm htr h1 h2
    rw [Cache.apiFetch_mismatch E st pathRel basePath ttl hd assets dig c
        hsafe hh ha hcached hlook hdig hmm]
    rw [Cache.doFetch_ok E (Cache.storagePrefixStr ++ pathRel) (some c) st.now
        pathRel basePath ttl st Cache.maxRetries
        { content := body, etag := etag, fetchedAt := st.now,
          hash := Cache.calculateHash E body }
        (Cache.tryBlock_ok_2xx E (some c) st.now st.attempts status body etag htr h1 h2)]
  · intro st pathRel basePath ttl hd assets c hsafe hh ha hcached hcont hlook
    have hval : Cache.validStage E (Cache.hashStage E st) (some c) (basePath ++ pathRel) = true := by
      rw [Cache.hashStage_some E st hd hh]
      exact Cache.validStage_absent E st c (basePath ++ pathRel) hd assets
        hh ha hcont hlook
    rw [Cache.apiFetch_served E st pathRel basePath ttl c hsafe hcached hval,
        Cache.hashStage_some E st hd hh]

theorem claim_C6_hash_validation_witness :
    Cache.calculateHash Ew404 "C" = some "0123456789abcdef" ∧
    getKV [("pages/p", "0123456789abcdef")] (Cache.normPath ("pages/" ++ "p")) =
      some "0123456789abcdef" ∧
    Cache.apiFetchWithCache Ew404 stHit "p" "pages/" 0 =
      (.success { content := "C", etag := none, fetchedAt := 1,
                  hash := some "0123456789abcdef" }, stHit) ∧
    Cache.calculateHash Ew200 "C" ≠ some "ffffffffffffffff" ∧
    Cache.apiFetchWithCache Ew200 stMiss "p" "pages/" 0 =
      (.success { content := "B", etag := none, fetchedAt := 5,
                  hash := some "0123456789abcdef" },
       { stMiss with attempts := 1,
                     storage := setKV stMiss.storage "api-cache:p"
                       (.entry { content := "B", etag := none, fetchedAt := 5,
                                 hash := some "0123456789abcdef" }) }) ∧
    getKV ([] : List (String × String)) (Cache.normPath ("pages/" ++ "p")) = none ∧
    Cache.apiFetchWithCache Ew404 stNoMap "p" "pages/" 0 =
      (.success { content := "C", etag := none, fetchedAt := 1,
                  hash := some "0123456789abcdef" }, stNoMap) :=
  ⟨rfl, rfl,
   (claim_C6_hash_validation Ew404).1 stHit "p" "pages/" 0 hdW
     [("pages/p", "0123456789abcdef")] "0123456789abcdef"
     { content := "C", etag := none, fetchedAt := 1, hash := some "0123456789abcdef" }
     rfl rfl rfl rfl (by decide) rfl rfl,
   by decide,
   (claim_C6_hash_validation Ew200).2.1 stMiss "p" "pages/" 0 hdMiss
     [("pages/p", "ffffffffffffffff")] "ffffffffffffffff"
     { content := "C", etag := none, fetchedAt := 1, hash := some "0123456789abcdef" }
     200 "B" none rfl rfl rfl rfl rfl (by decide) (by decide) rfl
     (by decide) (by decide),
   rfl,
   (claim_C6_hash_validation Ew404).2.2 stNoMap "p" "pages/" 0
     { version := "1", assets := some [] } []
     { content := "C", etag := none, fetchedAt := 1, hash := some "0123456789abcdef" }
     rfl rfl rfl rfl (by decide) rfl⟩

/-- C7: when the retry budget is exhausted (all four transport attempts
fail): if a cached entry with truthy content exists (here it reached
`doFetch` because its digest failed validation), the stale entry is
returned instead of an error; if no cached entry exists and the process is
marked offline, the request triple is appended to the offline queue and the
final error is still surfaced to the caller. -/
theorem claim_C7_exhaustion_fallbacks (E : FetchEnv) :
    (∀ (st : CState) (pathRel basePath : String) (ttl : Nat) (hd : HashData)
       (assets : List (String × String)) (dig : String) (c : CEntry),
      E.isUrlSafe (Cache.urlOf E (basePath ++ pathRel)) = true →
      st.apiHashes = some hd →
      hd.assets = some assets →
      Cache.getEntry st.storage (Cache.storagePrefixStr ++ pathRel) = some c →
      c.content ≠ "" →
      getKV assets (Cache.normPath (basePath ++ pathRel)) = some dig →
      dig ≠ "" →
      Cache.calculateHash E c.content ≠ some dig →
      (∀ j, j ≤ 3 → Cache.isErrB (Cache.tryBlock E (some c) st.now (st.attempts + j)) = true) →
      (Cache.apiFetchWithCache E st pathRel basePath ttl).1 = .success c ∧
      (Cache.apiFetchWithCache E st pathRel basePath ttl).2.attempts = st.attempts + 4) ∧
    (∀ (st : CState) (pathRel basePath : String) (ttl : Nat) (hd : HashData)
       (e : FetchErr),
      E.isUrlSafe (Cache.urlOf E (basePath ++ pathRel)) = true →
      st.apiHashes = some hd →
      Cache.getEntry st.storage (Cache.storagePrefixStr ++ pathRel) = none →
      st.isOnline = false →
      (∀ j, j < 3 → Cache.isErrB (Cache.tryBlock E none st.now (st.attempts + j)) = true) →
      Cache.tryBlock E none st.now (st.attempts + 3) = .error e →
      (Cache.apiFetchWithCache E st pathRel basePath ttl).1 = .error e ∧
      (Cache.apiFetchWithCache E st pathRel basePath ttl).2.offlineQueue =
        st.offlineQueue ++ [{ pathRel := pathRel, basePath := basePath, ttl := ttl }]) := by
  constructor
  · intro st pathRel basePath ttl hd assets dig c hsafe hh ha hcached hcont hlook
      hdig hmm hfails
    obtain ⟨e, he⟩ := Cache.isErrB_spec _ (hfails 3 (by omega))
    rw [Cache.apiFetch_mismatch E st pathRel basePath ttl hd assets dig c
        hsafe hh ha hcached hlook hdig hmm]
    rw [Cache.doFetch_fail_k E (Cache.storagePrefixStr ++ pathRel) (some c) st.now
        pathRel basePath ttl 3 Cache.maxRetries st (by decide)
        (fun j hj => hfails j (by omega))]
    rw [show Cache.maxRetries - 3 = 0 from rfl]
    rw [Cache.doFetch_exhaust_stale E (Cache.storagePrefixStr ++ pathRel) c st.now
        pathRel basePath ttl { st with attempts := st.attempts + 3 } e he hcont]
    exact ⟨rfl, rfl⟩
  · intro st pathRel basePath ttl hd e hsafe hh hcached hoff hfails hlast
    rw [Cache.apiFetch_nocache E st pathRel basePath ttl hd hsafe hh hcached]
    rw [Cache.doFetch_fail_k E (Cache.storagePrefixStr ++ pathRel) none st.now
        pathRel basePath ttl 3 Cache.maxRetries st (by decide)
        (fun j hj => hfails j hj)]
    rw [show Cache.maxRetries - 3 = 0 from rfl]
    rw [Cache.doFetch_exhaust_queue E (Cache.storagePrefixStr ++ pathRel) st.now
        pathRel basePath ttl { st with attempts := st.attempts + 3 } e hlast hoff]
    exact ⟨rfl, rfl⟩

theorem claim_C7_exhaustion_fallbacks_witness :
    Cache.calculateHash EwDown "C" ≠ some "ffffffffffffffff" ∧
    (∀ j, j ≤ 3 → Cache.isErrB (Cache.tryBlock EwDown
      (some { content := "C", etag := none, fetchedAt := 1,
              hash := some "0123456789abcdef" }) stMiss.now (stMiss.attempts + j)) = true) ∧
    (Cache.apiFetchWithCache EwDown stMiss "p" "pages/" 0).1 =
      .success { content := "C", etag := none, fetchedAt := 1,
                 hash := some "0123456789abcdef" } ∧
    stOffline.isOnline = false ∧
    (Cache.apiFetchWithCache EwDown stOffline "p" "pages/" 9).1 = .error .netErr ∧
    (Cache.apiFetchWithCache EwDown stOffline "p" "pages/" 9).2.offlineQueue =
      stOffline.offlineQueue ++ [{ pathRel := "p", basePath := "pages/", ttl := 9 }] :=
  ⟨by decide, by decide,
   ((claim_C7_exhaustion_fallbacks EwDown).1 stMiss "p" "pages/" 0 hdMiss
     [("pages/p", "ffffffffffffffff")] "ffffffffffffffff"
     { content := "C", etag := none, fetchedAt := 1, hash := some "0123456789abcdef" }
     rfl rfl rfl rfl (by decide) rfl (by decide) (by decide) (by decide)).1,
   rfl,
   ((claim_C7_exhaustion_fallbacks EwDown).2 stOffline "p" "pages/" 9
     { version := "1", assets := some [] } .netErr
     rfl rfl rfl rfl (by decide) rfl).1,
   ((claim_C7_exhaustion_fallbacks EwDown).2 stOffline "p" "pages/" 9
     { version := "1", assets := some [] } .netErr
     rfl rfl rfl rfl (by decide) rfl).2⟩

/-- C8: a transition from offline to online with a non-empty queue drains
it: every queued entry is handed exactly once, in order, to the same fetch
algorithm (the returned replay list is exactly the queued list), and after
the drain the queue is empty — replay failures are not re-queued, because a
request is only queued when the process is offline and the process stays
online throughout the drain. -/
theorem claim_C8_online_transition_drains_queue (E : FetchEnv) (st : CState)
    (hoff : st.isOnline = false) (hne : st.offlineQueue ≠ []) :
    (Cache.setOnlineStatus E st true).2 = st.offlineQueue ∧
    (Cache.setOnlineStatus E st true).1.offlineQueue = [] ∧
    (Cache.setOnlineStatus E st true).1.isOnline = true := by
  have hq : (st.offlineQueue == ([] : List QEntry)) = false := by
    cases h : st.offlineQueue with
    | nil => exact absurd h hne
    | cons a t => rfl
  have hrun := Cache.foldReplay_frame E st.offlineQueue
      { st with isOnline := true, offlineQueue := [] } rfl
  simp only [Cache.setOnlineStatus, Cache.processOfflineQueue, hoff, hq,
    Bool.not_false, Bool.and_true, Bool.true_and, Bool.and_self, if_true,
    Bool.not_true, Bool.false_eq_true, if_false]
  exact ⟨by trivial, hrun.2, hrun.1⟩

theorem claim_C8_online_transition_drains_queue_witness :
    stQueued.isOnline = false ∧
    stQueued.offlineQueue ≠ [] ∧
    (Cache.setOnlineStatus EwDown stQueued true).2 = stQueued.offlineQueue ∧
    (Cache.setOnlineStatus EwDown stQueued true).1.offlineQueue = [] ∧
    (Cache.setOnlineStatus EwDown stQueued true).1.isOnline = true :=
  ⟨rfl, by decide,
   (claim_C8_online_transition_drains_queue EwDown stQueued rfl (by decide)).1,
   (claim_C8_online_transition_drains_queue EwDown stQueued rfl (by decide)).2.1,
   (claim_C8_online_transition_drains_queue EwDown stQueued rfl (by decide)).2.2⟩

/-- C9: when the manifest fetch fails — the transport rejects or the
response status is non-OK — `fetchHashesFromAPI` returns the stored
manifest data whatever its age (the only staleness assumption is the one
that made the function fetch at all), instead of throwing to the caller. -/
theorem claim_C9_manifest_failure_returns_cached (E : FetchEnv) (st : CState)
    (hc : HashCache)
    (hstored : Cache.getHCache st.storage Cache.hashesCacheKey = some hc)
    (hstale : (hc.fetchedAt != 0 &&
      ((st.now : Int) - (hc.fetchedAt : Int) < Cache.hashesTTL)) = false) :
    (E.hashTransport st.hashCalls = .throwErr →
      (Cache.fetchHashesFromAPI E st).1 = some hc.data) ∧
    (∀ (status : Nat) (success : Bool) (data : Option HashData),
      ¬(200 ≤ status ∧ status < 300) →
      E.hashTransport st.hashCalls = .resp status success data →
      (Cache.fetchHashesFromAPI E st).1 = some hc.data) := by
  constructor
  · intro htr
    simp only [Cache.fetchHashesFromAPI, hstored, hstale, Bool.false_eq_true,
      if_false, htr]
    rfl
  · intro status success data hnok htr
    have hok : (decide (200 ≤ status) && decide (status < 300)) = false := by
      rcases Decidable.not_and_iff_or_not.mp hnok with h | h <;> simp [h]
    simp only [Cache.fetchHashesFromAPI, hstored, hstale, Bool.false_eq_true,
      if_false, htr, hok]
    rfl

theorem claim_C9_manifest_failure_returns_cached_witness :
    Cache.getHCache stOldHashes.storage Cache.hashesCacheKey =
      some { data := hdW, fetchedAt := 1 } ∧
    (({ data := hdW, fetchedAt := 1 } : HashCache).fetchedAt != 0 &&
      ((stOldHashes.now : Int) - ((1 : Nat) : Int) < Cache.hashesTTL)) = false ∧
    (Cache.fetchHashesFromAPI EwDown stOldHashes).1 = some hdW ∧
    (Cache.fetchHashesFromAPI EwH500 stOldHashes).1 = some hdW :=
  ⟨rfl, by decide,
   (claim_C9_manifest_failure_returns_cached EwDown stOldHashes
     { data := hdW, fetchedAt := 1 } rfl (by decide)).1 rfl,
   (claim_C9_manifest_failure_returns_cached EwH500 stOldHashes
     { data := hdW, fetchedAt := 1 } rfl (by decide)).2 500 false none
     (by omega) rfl⟩
